import Mathlib

/-!
# Verification of the glTF v2 core reference machinery

A shallow embedding of the repository's core (`src/macros.rs`,
`src/v2/mod.rs`, `src/v2/skin.rs`): the typed `Index` reference system, the
reusable enum codecs, the `Root` aggregate with its serde-derived decoding
behaviour, the per-kind accessors and the generic `Get` dispatch, and the
(stubbed) graph validator.

JSON documents are modelled as an abstract syntax tree (`Json`); the serde
deserializers derived or hand-written in the source are modelled as functions
`Json → Except String _`.  Machine integers (`u32`, `u64`) are modelled as
`Nat` with explicit `% 2^32` / bounds where the source truncates or is bounded.
Rust panics (unchecked slice indexing) are modelled as `Option.none`.
-/

/-- A JSON value.  Numbers are restricted to non-negative integers: every
numeric position that the verified core reads goes through serde's
`deserialize_u64`, which only accepts non-negative integral numbers. -/
inductive Json where
  | null
  | bool (b : Bool)
  | num (n : Nat)
  | str (s : String)
  | arr (elems : List Json)
  | obj (fields : List (String × Json))

/-- Entity kinds owned by the root object; the type-level tag carried by
`Index<T>` in the source is embedded as this kind index. -/
inductive Kind where
  | accessor
  | animation
  | buffer
  | bufferView
  | camera
  | image
  | material
  | mesh
  | node
  | sampler
  | scene
  | skin
  | texture
deriving DecidableEq

/-- Source `pub struct Index<T>(u32, PhantomData<T>)` — index into an array owned by
the root glTF object.  The `u32` is a `Nat` kept below `2^32` by
`Index.new`. -/
structure Index (k : Kind) where
  value : Nat
deriving DecidableEq

/-- Source `Index::new(value: u32)` — the `u32` argument is modelled by explicit
truncation of the incoming integer to 32 bits (`value as u32` at the one call
site, in `visit_u64`). -/
def Index.new (k : Kind) (v : Nat) : Index k :=
  ⟨v % 2 ^ 32⟩

/-- Source `impl Serialize for Index<T>`: `serializer.serialize_u64(self.value() as u64)`. -/
def Index.serialize {k : Kind} (i : Index k) : Json :=
  .num i.value

/-- Source `impl Deserialize for Index<T>`: `deserializer.deserialize_u64` with a
visitor whose only method is `visit_u64`, which returns
`Index::new(value as u32)`.  A non-negative integral JSON number below `2^64`
reaches `visit_u64`; any other JSON value is a serde type error. -/
def decodeIndex (k : Kind) : Json → Except String (Index k)
  | .num v => if v < 2 ^ 64 then .ok (Index.new k v) else .error "invalid type: expected u64"
  | _ => .error "invalid type: expected GLenum"

/-- Source `UntypedJsonObject = HashMap<String, serde_json::Value>` (the payload of
the `extensions` / `extras` slots), modelled as an association list. -/
def UntypedJsonObject : Type := List (String × Json)

/-- Decoder for `UntypedJsonObject`: any JSON object, all fields accepted. -/
def decodeObjMap : Json → Except String UntypedJsonObject
  | .obj fields => .ok fields
  | _ => .error "invalid type: expected map"

/-- Decoder for a `String` field. -/
def decodeString : Json → Except String String
  | .str s => .ok s
  | _ => .error "invalid type: expected string"

/-- Sequence decoding: elements decoded in order, the first failure aborts. -/
def decodeList {α : Type} (dec : Json → Except String α) :
    List Json → Except String (List α)
  | [] => .ok []
  | x :: xs => do
    let y ← dec x
    let ys ← decodeList dec xs
    .ok (y :: ys)

/-- Decoder for a `Vec<_>` field: a JSON array, elements decoded in order. -/
def decodeArr {α : Type} (dec : Json → Except String α) : Json → Except String (List α)
  | .arr xs => decodeList dec xs
  | _ => .error "invalid type: expected sequence"

/-- serde struct decoding, `Option<T>` field (no `#[serde(default)]`):
absent or `null` becomes `None`, any other value is decoded. -/
def optField {α : Type} (dec : Json → Except String α)
    (fields : List (String × Json)) (key : String) : Except String (Option α) :=
  match List.lookup key fields with
  | none => .ok none
  | some .null => .ok none
  | some j => (dec j).map some

/-- serde struct decoding, field with `#[serde(default ...)]`: absent uses the
default, present values (including `null`) are decoded. -/
def defField {α : Type} (dec : Json → Except String α)
    (fields : List (String × Json)) (key : String) (d : α) : Except String α :=
  match List.lookup key fields with
  | none => .ok d
  | some j => dec j

/-- serde struct decoding, required field: absent is a decode error. -/
def reqField {α : Type} (dec : Json → Except String α)
    (fields : List (String × Json)) (key : String) : Except String α :=
  match List.lookup key fields with
  | none => .error ("missing field " ++ key)
  | some j => dec j

/-- serde rejects a document object that repeats a field name. -/
def nodupKeys : List (String × Json) → Bool
  | [] => true
  | (k, _) :: rest => !((rest.map Prod.fst).contains k) && nodupKeys rest

/-- A document object has a field name outside the accepted list
(`#[serde(deny_unknown_fields)]`). -/
def hasUnknownKey (keys : List String) (fields : List (String × Json)) : Bool :=
  fields.any (fun kv => !(keys.contains kv.1))

/-- Modelled from the spec: the field-by-field shapes of the accessor,
animation, buffer, buffer-view, camera, image, material, mesh, sampler and
texture entities are out of scope (§1, §6) and their modules are not part of
the verified fragment; each is modelled as an uninterpreted JSON object. -/
structure OpaqueEntity where
  fields : List (String × Json)

/-- Modelled from the spec: decoder for an out-of-scope entity (object shape
only, fields uninterpreted). -/
def decodeOpaque : Json → Except String OpaqueEntity
  | .obj fields => .ok ⟨fields⟩
  | _ => .error "invalid type: expected struct"

/-- Source `pub struct Asset` (src/v2/mod.rs, `#[serde(deny_unknown_fields)]`). -/
structure Asset where
  copyright : Option String
  extensions : Option UntypedJsonObject
  extras : Option UntypedJsonObject
  generator : Option String
  version : String

/-- Source `fn asset_version_default() -> String { "2.0".to_string() }` -/
def asset_version_default : String := "2.0"

/-- Accepted field names of `Asset`. -/
def assetKeys : List String :=
  ["copyright", "extensions", "extras", "generator", "version"]

/-- Derived `Deserialize` of `Asset`: closed field set, every field optional
except that `version` defaults to `asset_version_default`. -/
def decodeAsset : Json → Except String Asset
  | .obj fields =>
    if hasUnknownKey assetKeys fields then .error "unknown field"
    else if !nodupKeys fields then .error "duplicate field"
    else do
      let copyright ← optField decodeString fields "copyright"
      let extensions ← optField decodeObjMap fields "extensions"
      let extras ← optField decodeObjMap fields "extras"
      let generator ← optField decodeString fields "generator"
      let version ← defField decodeString fields "version" asset_version_default
      .ok ⟨copyright, extensions, extras, generator, version⟩
  | _ => .error "invalid type: expected struct Asset"

/-- Source `pub struct Skin<E, X>` (src/v2/skin.rs, `#[serde(deny_unknown_fields)]`).
The capability parameters are instantiated at the default
`NoExtensions`/`NoExtras` shape (`extensions`/`extras` untyped slots). -/
structure Skin where
  extensions : Option UntypedJsonObject
  extras : Option UntypedJsonObject
  inverse_bind_matrices : Option (Index .accessor)
  joints : List (Index .node)
  name : Option String
  skeleton : Option (Index .node)

/-- Accepted field names of `Skin` (external naming: `inverseBindMatrices`). -/
def skinKeys : List String :=
  ["extensions", "extras", "inverseBindMatrices", "joints", "name", "skeleton"]

/-- Derived `Deserialize` of `Skin`: closed field set; `joints` is the only
required field (a `Vec` with no default), the rest are `Option`s. -/
def decodeSkin : Json → Except String Skin
  | .obj fields =>
    if hasUnknownKey skinKeys fields then .error "unknown field"
    else if !nodupKeys fields then .error "duplicate field"
    else do
      let extensions ← optField decodeObjMap fields "extensions"
      let extras ← optField decodeObjMap fields "extras"
      let ibm ← optField (decodeIndex .accessor) fields "inverseBindMatrices"
      let joints ← reqField (decodeArr (decodeIndex .node)) fields "joints"
      let name ← optField decodeString fields "name"
      let skeleton ← optField (decodeIndex .node) fields "skeleton"
      .ok ⟨extensions, extras, ibm, joints, name, skeleton⟩
  | _ => .error "invalid type: expected struct Skin"

/-- Modelled from the spec: the node entity (scene module) is not part of the
verified fragment; §4.5 lists its reference fields (camera, children nodes,
mesh, skin) and §4.3/§4.4 give it extensions/extras slots and a closed
schema. -/
structure Node where
  camera : Option (Index .camera)
  children : List (Index .node)
  extensions : Option UntypedJsonObject
  extras : Option UntypedJsonObject
  mesh : Option (Index .mesh)
  name : Option String
  skin : Option (Index .skin)

/-- Modelled from the spec: accepted field names of `Node`. -/
def nodeKeys : List String :=
  ["camera", "children", "extensions", "extras", "mesh", "name", "skin"]

/-- Modelled from the spec: decoder for `Node` (closed field set, reference
fields optional, `children` defaulting to empty). -/
def decodeNode : Json → Except String Node
  | .obj fields =>
    if hasUnknownKey nodeKeys fields then .error "unknown field"
    else if !nodupKeys fields then .error "duplicate field"
    else do
      let camera ← optField (decodeIndex .camera) fields "camera"
      let children ← defField (decodeArr (decodeIndex .node)) fields "children" []
      let extensions ← optField decodeObjMap fields "extensions"
      let extras ← optField decodeObjMap fields "extras"
      let mesh ← optField (decodeIndex .mesh) fields "mesh"
      let name ← optField decodeString fields "name"
      let skin ← optField (decodeIndex .skin) fields "skin"
      .ok ⟨camera, children, extensions, extras, mesh, name, skin⟩
  | _ => .error "invalid type: expected struct Node"

/-- Modelled from the spec: the scene entity (scene module) is not part of
the verified fragment; §4.5 says scenes reference nodes, §8 shows the
`nodes` array field. -/
structure Scene where
  extensions : Option UntypedJsonObject
  extras : Option UntypedJsonObject
  name : Option String
  nodes : List (Index .node)

/-- Modelled from the spec: accepted field names of `Scene`. -/
def sceneKeys : List String :=
  ["extensions", "extras", "name", "nodes"]

/-- Modelled from the spec: decoder for `Scene` (closed field set, `nodes`
defaulting to empty). -/
def decodeScene : Json → Except String Scene
  | .obj fields =>
    if hasUnknownKey sceneKeys fields then .error "unknown field"
    else if !nodupKeys fields then .error "duplicate field"
    else do
      let extensions ← optField decodeObjMap fields "extensions"
      let extras ← optField decodeObjMap fields "extras"
      let name ← optField decodeString fields "name"
      let nodes ← defField (decodeArr (decodeIndex .node)) fields "nodes" []
      .ok ⟨extensions, extras, name, nodes⟩
  | _ => .error "invalid type: expected struct Scene"

/-- Source `pub struct Root<E, X>` (src/v2/mod.rs, `#[serde(deny_unknown_fields)]`),
at the default capability instantiation: one ordered collection per entity
kind, the asset metadata, the active-scene index and the two extension-name
lists. -/
structure Root where
  accessors : List OpaqueEntity
  animations : List OpaqueEntity
  asset : Asset
  buffers : List OpaqueEntity
  buffer_views : List OpaqueEntity
  extensions_used : List String
  extensions_required : List String
  cameras : List OpaqueEntity
  images : List OpaqueEntity
  materials : List OpaqueEntity
  meshes : List OpaqueEntity
  nodes : List Node
  samplers : List OpaqueEntity
  scene : Index .scene
  scenes : List Scene
  skins : List Skin
  textures : List OpaqueEntity

/-- Source `fn root_scene_default() -> Index<Scene> { Index(0, PhantomData) }` -/
def root_scene_default : Index .scene := ⟨0⟩

/-- Accepted field names of `Root` (external naming: `bufferViews`,
`extensionsUsed`, `extensionsRequired`). -/
def rootKeys : List String :=
  ["accessors", "animations", "asset", "buffers", "bufferViews",
   "extensionsUsed", "extensionsRequired", "cameras", "images", "materials",
   "meshes", "nodes", "samplers", "scene", "scenes", "skins", "textures"]

/-- Field decoding of `Root` once the document object's keys are accepted:
`asset` is the only required field, every collection defaults to empty, the
active scene defaults to `root_scene_default`. -/
def decodeRootFields (fields : List (String × Json)) : Except String Root := do
  let accessors ← defField (decodeArr decodeOpaque) fields "accessors" []
  let animations ← defField (decodeArr decodeOpaque) fields "animations" []
  let asset ← reqField decodeAsset fields "asset"
  let buffers ← defField (decodeArr decodeOpaque) fields "buffers" []
  let buffer_views ← defField (decodeArr decodeOpaque) fields "bufferViews" []
  let extensions_used ← defField (decodeArr decodeString) fields "extensionsUsed" []
  let extensions_required ← defField (decodeArr decodeString) fields "extensionsRequired" []
  let cameras ← defField (decodeArr decodeOpaque) fields "cameras" []
  let images ← defField (decodeArr decodeOpaque) fields "images" []
  let materials ← defField (decodeArr decodeOpaque) fields "materials" []
  let meshes ← defField (decodeArr decodeOpaque) fields "meshes" []
  let nodes ← defField (decodeArr decodeNode) fields "nodes" []
  let samplers ← defField (decodeArr decodeOpaque) fields "samplers" []
  let scene ← defField (decodeIndex .scene) fields "scene" root_scene_default
  let scenes ← defField (decodeArr decodeScene) fields "scenes" []
  let skins ← defField (decodeArr decodeSkin) fields "skins" []
  let textures ← defField (decodeArr decodeOpaque) fields "textures" []
  .ok ⟨accessors, animations, asset, buffers, buffer_views, extensions_used,
       extensions_required, cameras, images, materials, meshes, nodes,
       samplers, scene, scenes, skins, textures⟩

/-- Derived `Deserialize` of `Root`: a JSON object with a closed field set
(`deny_unknown_fields`), no repeated keys, then per-field decoding. -/
def decodeRoot : Json → Except String Root
  | .obj fields =>
    if hasUnknownKey rootKeys fields then .error "unknown field"
    else if !nodupKeys fields then .error "duplicate field"
    else decodeRootFields fields
  | _ => .error "invalid type: expected struct Root"

/-- Source `fn indices_are_valid(&self) -> bool` — the source's validator is a stub:
its body is `// TODO: Implement me` followed by `true`. -/
def Root.indices_are_valid (_ : Root) : Bool :=
  true

/-- Source `enum ImportError` (as used by `Root::import_from_str`): a serde
deserialization failure or an invalid-graph failure. -/
inductive ImportError where
  | Deserialize (msg : String)
  | Invalid (msg : String)

/-- Source `Root::import_from_str`: deserialize the document, then accept it only if
`indices_are_valid` holds, otherwise fail with
`ImportError::Invalid("index out of range")`.  The text-to-JSON parse done by
`serde_json::from_str` is outside the model: the function takes the parsed
document tree. -/
def Root.import_from_str (doc : Json) : Except ImportError Root :=
  match decodeRoot doc with
  | .error e => .error (.Deserialize e)
  | .ok root =>
    if root.indices_are_valid then .ok root
    else .error (.Invalid "index out of range")

/-- The element type owned by the root for each entity kind (the `T` of the
source's `Index<T>` / `Get<T>`). -/
def Kind.Elem : Kind → Type
  | .accessor => OpaqueEntity
  | .animation => OpaqueEntity
  | .buffer => OpaqueEntity
  | .bufferView => OpaqueEntity
  | .camera => OpaqueEntity
  | .image => OpaqueEntity
  | .material => OpaqueEntity
  | .mesh => OpaqueEntity
  | .node => Node
  | .sampler => OpaqueEntity
  | .scene => Scene
  | .skin => Skin
  | .texture => OpaqueEntity

/-- The entity kinds appearing in the source's `impl_get!` invocation list
(mod.rs:348-359).  The list has twelve entries; `texture::Sampler` is absent,
so no `Get<Sampler>` implementation exists anywhere in the fragment and
`Root::get`, whose signature carries the bound `where Self: traits::Get<T>`,
cannot be invoked with a sampler index. -/
def Kind.hasGet : Kind → Bool
  | .accessor => true
  | .animation => true
  | .buffer => true
  | .bufferView => true
  | .camera => true
  | .image => true
  | .material => true
  | .mesh => true
  | .node => true
  | .sampler => false
  | .scene => true
  | .skin => true
  | .texture => true

/-- Source trait `traits::Get<T>` (`fn get(&self, index: Index<T>) -> &T`
implemented on `Root`), embedded as a type class: an instance carries the
collection field the implementation indexes into.  Instances are declared
below for exactly the kinds of the source's `impl_get!` invocations — the
ones with `Kind.hasGet` — and for no other kind. -/
class GetImpl (k : Kind) where
  collection : Root → List k.Elem

/-- Source `impl_get!(accessor::Accessor<E, X>, accessors)`. -/
instance getImplAccessor : GetImpl .accessor := ⟨Root.accessors⟩

/-- Source `impl_get!(animation::Animation<E, X>, animations)`. -/
instance getImplAnimation : GetImpl .animation := ⟨Root.animations⟩

/-- Source `impl_get!(buffer::Buffer, buffers)`. -/
instance getImplBuffer : GetImpl .buffer := ⟨Root.buffers⟩

/-- Source `impl_get!(buffer::View, buffer_views)`. -/
instance getImplBufferView : GetImpl .bufferView := ⟨Root.buffer_views⟩

/-- Source `impl_get!(camera::Camera, cameras)`. -/
instance getImplCamera : GetImpl .camera := ⟨Root.cameras⟩

/-- Source `impl_get!(texture::Image, images)`. -/
instance getImplImage : GetImpl .image := ⟨Root.images⟩

/-- Source `impl_get!(material::Material, materials)`. -/
instance getImplMaterial : GetImpl .material := ⟨Root.materials⟩

/-- Source `impl_get!(mesh::Mesh<E, X>, meshes)`. -/
instance getImplMesh : GetImpl .mesh := ⟨Root.meshes⟩

/-- Source `impl_get!(scene::Node<E, X>, nodes)`. -/
instance getImplNode : GetImpl .node := ⟨Root.nodes⟩

/-- Source `impl_get!(scene::Scene<E, X>, scenes)`. -/
instance getImplScene : GetImpl .scene := ⟨Root.scenes⟩

/-- Source `impl_get!(skin::Skin<E, X>, skins)`. -/
instance getImplSkin : GetImpl .skin := ⟨Root.skins⟩

/-- Source `impl_get!(texture::Texture, textures)`. -/
instance getImplTexture : GetImpl .texture := ⟨Root.textures⟩

/-- Source `Root::get`, via the `Get<T>` trait implementation selected by the
index's type tag: `&self.field[index.value() as usize]`.  The trait bound
`where Self: traits::Get<T>` is the instance requirement, so the operation is
unavailable for kinds without an `impl_get!` entry.  The unchecked Rust
indexing is modelled as `List.getElem?`: `none` is the out-of-bounds panic. -/
def Root.get {k : Kind} [inst : GetImpl k] (r : Root) (i : Index k) :
    Option k.Elem :=
  (inst.collection r)[i.value]?

/-- Source `Root::accessor` — `&self.accessors[index.0 as usize]`. -/
def Root.accessor (r : Root) (i : Index .accessor) : Option OpaqueEntity :=
  r.accessors[i.value]?

/-- Source `Root::animation` — `&self.animations[index.0 as usize]`. -/
def Root.animation (r : Root) (i : Index .animation) : Option OpaqueEntity :=
  r.animations[i.value]?

/-- Source `Root::buffer` — `&self.buffers[index.0 as usize]`. -/
def Root.buffer (r : Root) (i : Index .buffer) : Option OpaqueEntity :=
  r.buffers[i.value]?

/-- Source `Root::buffer_view` — `&self.buffer_views[index.0 as usize]`. -/
def Root.buffer_view (r : Root) (i : Index .bufferView) : Option OpaqueEntity :=
  r.buffer_views[i.value]?

/-- Source `Root::camera` — `&self.cameras[index.0 as usize]`. -/
def Root.camera (r : Root) (i : Index .camera) : Option OpaqueEntity :=
  r.cameras[i.value]?

/-- Source `Root::image` — `&self.images[index.0 as usize]`. -/
def Root.image (r : Root) (i : Index .image) : Option OpaqueEntity :=
  r.images[i.value]?

/-- Source `Root::material` — `&self.materials[index.0 as usize]`. -/
def Root.material (r : Root) (i : Index .material) : Option OpaqueEntity :=
  r.materials[i.value]?

/-- Source `Root::mesh` — `&self.meshes[index.0 as usize]`. -/
def Root.mesh (r : Root) (i : Index .mesh) : Option OpaqueEntity :=
  r.meshes[i.value]?

/-- Source `Root::node` — `&self.nodes[index.0 as usize]`. -/
def Root.node (r : Root) (i : Index .node) : Option Node :=
  r.nodes[i.value]?

/-- Source `Root::sampler` — `&self.samplers[index.0 as usize]`. -/
def Root.sampler (r : Root) (i : Index .sampler) : Option OpaqueEntity :=
  r.samplers[i.value]?

/-- Source `Root::scene(index)` — `&self.scenes[index.0 as usize]` (named `scene_at`
here because the structure already has the active-scene field `scene`). -/
def Root.scene_at (r : Root) (i : Index .scene) : Option Scene :=
  r.scenes[i.value]?

/-- Source `Root::skin` — `&self.skins[index.0 as usize]`. -/
def Root.skin (r : Root) (i : Index .skin) : Option Skin :=
  r.skins[i.value]?

/-- Source `Root::texture` — `&self.textures[index.0 as usize]`. -/
def Root.texture (r : Root) (i : Index .texture) : Option OpaqueEntity :=
  r.textures[i.value]?

namespace impl_enum_string

/-- Source `impl_enum_string!` generic model: the macro's declarative table is the
ordered list of `(enumerator, string token)` pairs written in its body. -/
def visit_str {α : Type} (table : List (α × String)) (value : String) :
    Except String α :=
  match table.find? (fun p => p.2 == value) with
  | some p => .ok p.1
  | none => .error ("invalid value: " ++ value)

/-- The `expecting` method of the generated visitor: each token of the table
written in order, each followed by a newline. -/
def expecting {α : Type} (table : List (α × String)) : String :=
  table.foldl (fun acc p => acc ++ p.2 ++ "\n") ""

/-- The generated `Serialize`: a match with one arm per enumerator, emitting
the table's token (`serializer.serialize_str($value)`).  The match is total
over the enum's constructors, i.e. over the table's keys. -/
def serialize {α : Type} [DecidableEq α] (table : List (α × String)) (x : α) :
    Option String :=
  (table.find? (fun p => p.1 == x)).map (fun p => p.2)

end impl_enum_string

namespace impl_enum_u32

/-- Source `impl_enum_u32!` generic model: the table is the ordered list of
`(enumerator, u32 discriminant)` pairs written in the macro's body.  Rust
rejects duplicate discriminants, and `#[repr(u32)]` bounds them by `2^32`. -/
def visit_u64 {α : Type} (table : List (α × Nat)) (value : Nat) :
    Except String α :=
  match table.find? (fun p => p.2 == value) with
  | some p => .ok p.1
  | none => .error ("invalid value: " ++ toString value)

/-- The generated `Serialize`: `serializer.serialize_u64(*self as u64)`, the
enumerator's table discriminant widened to `u64`. -/
def serialize {α : Type} [DecidableEq α] (table : List (α × Nat)) (x : α) :
    Option Nat :=
  (table.find? (fun p => p.1 == x)).map (fun p => p.2)

end impl_enum_u32

/-- An `Except` bind yields `ok` exactly when both stages do. -/
theorem bind_ok_iff {ε α β : Type} {e : Except ε α} {f : α → Except ε β} {b : β} :
    (e >>= f) = .ok b ↔ ∃ a, e = .ok a ∧ f a = .ok b := by
  cases e <;> simp [Bind.bind, Except.bind]

/-- A successful `Root` decode of a document object passes the closed-schema
and no-duplicate checks and comes from the field decoder. -/
theorem decodeRoot_obj_ok {fields : List (String × Json)} {r : Root}
    (h : decodeRoot (.obj fields) = .ok r) :
    hasUnknownKey rootKeys fields = false ∧ nodupKeys fields = true ∧
    decodeRootFields fields = .ok r := by
  simp only [decodeRoot] at h
  split at h
  next hc => exact absurd h (by simp)
  next hc =>
    split at h
    next hd => exact absurd h (by simp)
    next hd =>
      exact ⟨by simpa using hc, by simpa using hd, h⟩

/-- If the field decoder succeeds with no `scene` key in the document, the
active scene is the default. -/
theorem decodeRootFields_scene_default {fields : List (String × Json)} {r : Root}
    (h : List.lookup "scene" fields = none)
    (hok : decodeRootFields fields = .ok r) :
    r.scene = root_scene_default := by
  simp only [decodeRootFields, bind_ok_iff] at hok
  obtain ⟨a1, h1, a2, h2, a3, h3, a4, h4, a5, h5, a6, h6, a7, h7, a8, h8, a9, h9,
    a10, h10, a11, h11, a12, h12, a13, h13, a14, h14, a15, h15, a16, h16, a17, h17,
    hfin⟩ := hok
  rw [defField, h] at h14
  cases h14
  cases hfin
  rfl

/-- If the field decoder succeeds with no `cameras` key in the document, the
camera collection is empty. -/
theorem decodeRootFields_cameras_default {fields : List (String × Json)} {r : Root}
    (h : List.lookup "cameras" fields = none)
    (hok : decodeRootFields fields = .ok r) :
    r.cameras = [] := by
  simp only [decodeRootFields, bind_ok_iff] at hok
  obtain ⟨a1, h1, a2, h2, a3, h3, a4, h4, a5, h5, a6, h6, a7, h7, a8, h8, a9, h9,
    a10, h10, a11, h11, a12, h12, a13, h13, a14, h14, a15, h15, a16, h16, a17, h17,
    hfin⟩ := hok
  rw [defField, h] at h8
  cases h8
  cases hfin
  rfl

/-- A minimal document: only the required `asset` key. -/
def minimalFields : List (String × Json) :=
  [("asset", .obj [("version", .str "2.0")])]

/-- The root value the minimal document decodes to. -/
def minimalRoot : Root :=
  ⟨[], [], ⟨none, none, none, none, "2.0"⟩, [], [], [], [], [], [], [], [], [],
   [], ⟨0⟩, [], [], []⟩

/-- C5: for every document object with no `scene` key that otherwise decodes
successfully, the resulting root's active-scene index is the default with raw
value 0, even when the scenes collection is empty. -/
theorem C5_scene_defaults_to_zero (fields : List (String × Json)) (r : Root)
    (h : List.lookup "scene" fields = none)
    (hok : decodeRoot (.obj fields) = .ok r) :
    r.scene = root_scene_default ∧ r.scene.value = 0 := by
  have hf := (decodeRoot_obj_ok hok).2.2
  have hs := decodeRootFields_scene_default h hf
  exact ⟨hs, by rw [hs]; rfl⟩

/-- C5 witness: the minimal document has no `scene` key, decodes to
`minimalRoot`, and its active-scene index is 0 with `scenes` empty. -/
theorem C5_scene_defaults_to_zero_witness :
    List.lookup "scene" minimalFields = none ∧
    decodeRoot (.obj minimalFields) = .ok minimalRoot ∧
    minimalRoot.scenes = [] ∧
    minimalRoot.scene = root_scene_default ∧ minimalRoot.scene.value = 0 :=
  ⟨by rfl, by rfl, by rfl,
   C5_scene_defaults_to_zero minimalFields minimalRoot (by rfl) (by rfl)⟩

/-- C6: for every document object with no `cameras` key that otherwise decodes
successfully, the camera collection of the resulting root is empty — the
absence of the key is not an error. -/
theorem C6_cameras_default_empty (fields : List (String × Json)) (r : Root)
    (h : List.lookup "cameras" fields = none)
    (hok : decodeRoot (.obj fields) = .ok r) :
    r.cameras = [] :=
  decodeRootFields_cameras_default h ((decodeRoot_obj_ok hok).2.2)

/-- C6 witness: the minimal document has no `cameras` key, decodes
successfully, and its camera collection is empty. -/
theorem C6_cameras_default_empty_witness :
    List.lookup "cameras" minimalFields = none ∧
    decodeRoot (.obj minimalFields) = .ok minimalRoot ∧
    minimalRoot.cameras = [] :=
  ⟨by rfl, by rfl,
   C6_cameras_default_empty minimalFields minimalRoot (by rfl) (by rfl)⟩

/-- A document whose single node references mesh position 0 while the mesh
collection is empty: the reference is out of range. -/
def badDocFields : List (String × Json) :=
  [("asset", .obj [("version", .str "2.0")]),
   ("nodes", .arr [.obj [("mesh", .num 0)]])]

/-- The node decoded from the document above. -/
def badNode : Node :=
  ⟨none, [], none, none, some ⟨0⟩, none, none⟩

/-- The root value that `badDocFields` decodes to. -/
def badRoot : Root :=
  ⟨[], [], ⟨none, none, none, none, "2.0"⟩, [], [], [], [], [], [], [], [],
   [badNode], [], ⟨0⟩, [], [], []⟩

/-- C1: evaluation of the code at the failing input.  The document contains a
node whose mesh reference (raw value 0) is out of range for the empty mesh
collection, yet `Root::import_from_str` returns it successfully, because the
`indices_are_valid` validator is a stub that always answers `true`; the
invalid-graph error branch is never taken.  (The claim — construction must
fail with an invalid-graph error — is what the source's own doc comment and
the spec require; the stub contradicts it.) -/
theorem C1_stub_accepts_out_of_range_index :
    Root.import_from_str (.obj badDocFields) = .ok badRoot ∧
    badRoot.nodes = [badNode] ∧
    badNode.mesh = some ⟨0⟩ ∧
    badRoot.meshes.length = 0 ∧
    badRoot.indices_are_valid = true := by
  refine ⟨rfl, rfl, rfl, rfl, rfl⟩

/-- C2: for every non-negative 32-bit integer `v`, decoding an index from the
document integer `v` succeeds, the decoded raw value is exactly `v`, and
re-encoding emits the identical integer. -/
theorem C2_index_roundtrip (k : Kind) (v : Nat) (h : v < 2 ^ 32) :
    decodeIndex k (.num v) = .ok (Index.new k v) ∧
    (Index.new k v).value = v ∧
    Index.serialize (Index.new k v) = .num v := by
  have hle : (2 : Nat) ^ 32 ≤ 2 ^ 64 := by norm_num
  have h64 : v < 2 ^ 64 := lt_of_lt_of_le h hle
  have hv : (Index.new k v).value = v := Nat.mod_eq_of_lt h
  refine ⟨?_, hv, ?_⟩
  · simp only [decodeIndex]
    rw [if_pos h64]
  · simp only [Index.serialize, hv]

/-- C2 witness at `v = 7`. -/
theorem C2_index_roundtrip_witness :
    decodeIndex .mesh (.num 7) = .ok (Index.new .mesh 7) ∧
    (Index.new .mesh 7).value = 7 ∧
    Index.serialize (Index.new .mesh 7) = .num 7 :=
  C2_index_roundtrip .mesh 7 (by norm_num)

/-- C10: for every document integer `v` with `2^32 ≤ v < 2^64`, index
decoding does not fail: it silently truncates to `v % 2^32`, and re-encoding
therefore emits a different integer — the round-trip is not preserved. -/
theorem C10_index_silent_truncation (k : Kind) (v : Nat)
    (h32 : 2 ^ 32 ≤ v) (h64 : v < 2 ^ 64) :
    decodeIndex k (.num v) = .ok (Index.new k v) ∧
    (Index.new k v).value = v % 2 ^ 32 ∧
    Index.serialize (Index.new k v) ≠ .num v := by
  have hlt : v % 2 ^ 32 < v :=
    lt_of_lt_of_le (Nat.mod_lt v (by norm_num)) h32
  refine ⟨?_, rfl, ?_⟩
  · simp only [decodeIndex]
    rw [if_pos h64]
  · simp only [Index.serialize, Index.new, ne_eq, Json.num.injEq]
    omega

/-- C10 witness at `v = 2^32`: decode succeeds with raw value 0 and encode
emits 0, not `2^32`. -/
theorem C10_index_silent_truncation_witness :
    decodeIndex .mesh (.num (2 ^ 32)) = .ok (Index.new .mesh (2 ^ 32)) ∧
    (Index.new .mesh (2 ^ 32)).value = 2 ^ 32 % 2 ^ 32 ∧
    Index.serialize (Index.new .mesh (2 ^ 32)) ≠ .num (2 ^ 32) :=
  C10_index_silent_truncation .mesh (2 ^ 32) (le_refl _) (by norm_num)

/-- C8 counterexample: the claim quantifies the generic `Get` / per-kind
accessor agreement over every entity kind, but the source's `impl_get!`
invocation list omits the sampler kind (twelve entries, mod.rs:348-359), so
`Root::get` has no `Get<Sampler>` implementation and cannot be invoked with a
sampler index at all — while every other kind is covered. -/
theorem C8_sampler_lacks_get_impl :
    Kind.hasGet .sampler = false ∧
    ([Kind.accessor, .animation, .buffer, .bufferView, .camera, .image,
      .material, .mesh, .node, .scene, .skin, .texture].all Kind.hasGet)
      = true :=
  ⟨rfl, rfl⟩

/-- C8 (amended): for every kind covered by the `impl_get!` dispatch table —
all kinds except sampler, which the table omits — the generic `Get` operation
agrees with the per-kind accessor, dispatch being determined solely by the
index's kind tag, and for an in-range index returns exactly the element at
position `index.value()` of the matching collection. -/
theorem C8_get_matches_accessors (r : Root) :
    (∀ i : Index .accessor, r.get i = r.accessor i) ∧
    (∀ i : Index .animation, r.get i = r.animation i) ∧
    (∀ i : Index .buffer, r.get i = r.buffer i) ∧
    (∀ i : Index .bufferView, r.get i = r.buffer_view i) ∧
    (∀ i : Index .camera, r.get i = r.camera i) ∧
    (∀ i : Index .image, r.get i = r.image i) ∧
    (∀ i : Index .material, r.get i = r.material i) ∧
    (∀ i : Index .mesh, r.get i = r.mesh i) ∧
    (∀ i : Index .node, r.get i = r.node i) ∧
    (∀ i : Index .scene, r.get i = r.scene_at i) ∧
    (∀ i : Index .skin, r.get i = r.skin i) ∧
    (∀ i : Index .texture, r.get i = r.texture i) ∧
    (∀ (i : Index .node) (h : i.value < r.nodes.length),
      r.get i = some (r.nodes.get ⟨i.value, h⟩)) := by
  refine ⟨fun i => rfl, fun i => rfl, fun i => rfl, fun i => rfl, fun i => rfl,
    fun i => rfl, fun i => rfl, fun i => rfl, fun i => rfl, fun i => rfl,
    fun i => rfl, fun i => rfl, ?_⟩
  intro i h
  show (getImplNode.collection r)[i.value]? = some (r.nodes.get ⟨i.value, h⟩)
  simp only [List.get_eq_getElem]
  exact List.getElem?_eq_getElem h

/-- A root owning exactly one (empty) node. -/
def sampleNode : Node :=
  ⟨none, [], none, none, none, none, none⟩

/-- A root owning exactly one node and nothing else. -/
def sampleRoot : Root :=
  ⟨[], [], ⟨none, none, none, none, "2.0"⟩, [], [], [], [], [], [], [], [],
   [sampleNode], [], ⟨0⟩, [], [], []⟩

/-- C8 witness: on a root with one node, the generic `Get` at index 0 agrees
with the per-kind accessor and returns that node. -/
theorem C8_get_matches_accessors_witness :
    Root.get sampleRoot (⟨0⟩ : Index .node) = Root.node sampleRoot ⟨0⟩ ∧
    Root.get sampleRoot (⟨0⟩ : Index .node)
      = some (sampleRoot.nodes.get ⟨0, Nat.one_pos⟩) := by
  have hmain := C8_get_matches_accessors sampleRoot
  exact ⟨hmain.2.2.2.2.2.2.2.2.1 ⟨0⟩,
    hmain.2.2.2.2.2.2.2.2.2.2.2.2 ⟨0⟩ Nat.one_pos⟩

/-- C9: the fetch-by-index operations are unchecked positional accesses — on
an out-of-range index (raw value ≥ collection length) the failure branch is
taken (`none`, the abnormal-termination model of the Rust panic), for the
per-kind accessor and for the generic `Get` alike; whenever the precondition
`index.value() < length` holds, the fetch succeeds. -/
theorem C9_unchecked_positional_access (r : Root) :
    (∀ i : Index .node, r.nodes.length ≤ i.value →
      r.node i = none ∧ r.get i = none) ∧
    (∀ i : Index .camera, r.cameras.length ≤ i.value →
      r.camera i = none ∧ r.get i = none) ∧
    (∀ i : Index .accessor, r.accessors.length ≤ i.value →
      r.accessor i = none ∧ r.get i = none) ∧
    (∀ i : Index .node, i.value < r.nodes.length →
      (r.node i).isSome = true) := by
  refine ⟨fun i h => ⟨?_, ?_⟩, fun i h => ⟨?_, ?_⟩, fun i h => ⟨?_, ?_⟩, ?_⟩
  · exact List.getElem?_eq_none h
  · exact List.getElem?_eq_none h
  · exact List.getElem?_eq_none h
  · exact List.getElem?_eq_none h
  · exact List.getElem?_eq_none h
  · exact List.getElem?_eq_none h
  · intro i h
    simp [Root.node, List.getElem?_eq_getElem h]

/-- C9 witness: on the minimal (empty-collection) root, index 0 is out of
range for the node collection and both fetch operations take the failure
branch. -/
theorem C9_unchecked_positional_access_witness :
    Root.node minimalRoot ⟨0⟩ = none ∧
    Root.get minimalRoot (⟨0⟩ : Index .node) = none :=
  (C9_unchecked_positional_access minimalRoot).1 ⟨0⟩ (Nat.le_refl 0)

/-- In a table whose keys are distinct, searching by key finds the unique
entry of that key. -/
theorem find_by_key_eq {α β : Type} [DecidableEq α] {l : List (α × β)} {a : α}
    {b : β} (hnd : (l.map Prod.fst).Nodup) (hmem : (a, b) ∈ l) :
    l.find? (fun p => p.1 == a) = some (a, b) := by
  induction l with
  | nil => cases hmem
  | cons p t ih =>
    rcases List.mem_cons.mp hmem with heq | hmem2
    · subst heq
      exact List.find?_cons_of_pos _ (by simp)
    · rw [List.map_cons] at hnd
      have hn := (List.nodup_cons.mp hnd).1
      have hmap : a ∈ t.map Prod.fst := List.mem_map.mpr ⟨(a, b), hmem2, rfl⟩
      have hne : p.1 ≠ a := by
        intro hcontra
        rw [hcontra] at hn
        exact hn hmap
      rw [List.find?_cons_of_neg _ (by simpa using hne)]
      exact ih (List.nodup_cons.mp hnd).2 hmem2

/-- In a table whose external representations are distinct, searching by
representation finds the unique entry carrying it. -/
theorem find_by_val_eq {α β : Type} [DecidableEq β] {l : List (α × β)} {a : α}
    {b : β} (hnd : (l.map Prod.snd).Nodup) (hmem : (a, b) ∈ l) :
    l.find? (fun p => p.2 == b) = some (a, b) := by
  induction l with
  | nil => cases hmem
  | cons p t ih =>
    rcases List.mem_cons.mp hmem with heq | hmem2
    · subst heq
      exact List.find?_cons_of_pos _ (by simp)
    · rw [List.map_cons] at hnd
      have hn := (List.nodup_cons.mp hnd).1
      have hmap : b ∈ t.map Prod.snd := List.mem_map.mpr ⟨(a, b), hmem2, rfl⟩
      have hne : p.2 ≠ b := by
        intro hcontra
        rw [hcontra] at hn
        exact hn hmap
      rw [List.find?_cons_of_neg _ (by simpa using hne)]
      exact ih (List.nodup_cons.mp hnd).2 hmem2

/-- C4: over any token table and any code table in which every enumerator has
exactly one external representation (distinct enumerators, distinct
representations), encoding an enumerator emits exactly its table entry, and
decoding that representation yields the same enumerator back. -/
theorem C4_enum_table_roundtrip {α γ : Type} [DecidableEq α] [DecidableEq γ]
    (stable : List (α × String)) (x : α) (s : String)
    (utable : List (γ × Nat)) (y : γ) (c : Nat)
    (hsk : (stable.map Prod.fst).Nodup) (hsv : (stable.map Prod.snd).Nodup)
    (hsm : (x, s) ∈ stable)
    (huk : (utable.map Prod.fst).Nodup) (huv : (utable.map Prod.snd).Nodup)
    (hum : (y, c) ∈ utable) :
    impl_enum_string.serialize stable x = some s ∧
    impl_enum_string.visit_str stable s = .ok x ∧
    impl_enum_u32.serialize utable y = some c ∧
    impl_enum_u32.visit_u64 utable c = .ok y := by
  refine ⟨?_, ?_, ?_, ?_⟩
  · rw [impl_enum_string.serialize, find_by_key_eq hsk hsm]
    rfl
  · simp only [impl_enum_string.visit_str]
    rw [find_by_val_eq hsv hsm]
  · rw [impl_enum_u32.serialize, find_by_key_eq huk hum]
    rfl
  · simp only [impl_enum_u32.visit_u64]
    rw [find_by_val_eq huv hum]

/-- C4 witness at concrete two-entry tables. -/
theorem C4_enum_table_roundtrip_witness :
    impl_enum_string.serialize [(0, "SCALAR"), (1, "VEC2")] (1 : Nat)
      = some "VEC2" ∧
    impl_enum_string.visit_str [(0, "SCALAR"), (1, "VEC2")] "VEC2"
      = .ok (1 : Nat) ∧
    impl_enum_u32.serialize [(0, 5120), (1, 5121)] (0 : Nat) = some 5120 ∧
    impl_enum_u32.visit_u64 [(0, 5120), (1, 5121)] 5120 = .ok (0 : Nat) :=
  C4_enum_table_roundtrip [(0, "SCALAR"), (1, "VEC2")] 1 "VEC2"
    [(0, 5120), (1, 5121)] 0 5120
    (by decide) (by decide) (by decide) (by decide) (by decide) (by decide)

/-- C3 counterexample: on a one-token table and the unknown input string
`"bar"`, decoding fails with the message `invalid value: bar` — the accepted
token `FOO` does not occur anywhere in that message, so the error does not
enumerate the accepted tokens of the table.  (In the source the failure path
is `Err(E::custom(format!("invalid value: {}", bad)))`; the token list written
by the visitor's `expecting` method is not part of this custom error.) -/
theorem C3_error_lacks_token_list :
    impl_enum_string.visit_str [((0 : Nat), "FOO")] "bar"
      = .error "invalid value: bar" ∧
    ¬ ("FOO".toList <:+: ("invalid value: bar").toList) := by
  exact ⟨rfl, by decide⟩

/-- C3 as amended: decoding an input string absent from the table fails with
the error message `invalid value: <string>`, which names the rejected string
but does not enumerate the accepted tokens; decoding never succeeds with a
silent default. -/
theorem C3_unknown_token_fails {α : Type} (table : List (α × String))
    (s : String) (h : ∀ p ∈ table, p.2 ≠ s) :
    impl_enum_string.visit_str table s = .error ("invalid value: " ++ s) := by
  have hnone : table.find? (fun p => p.2 == s) = none :=
    List.find?_eq_none.mpr (by intro p hp; simpa using h p hp)
  simp only [impl_enum_string.visit_str]
  rw [hnone]

/-- C3 amended-claim witness at the concrete table and input of the
counterexample. -/
theorem C3_unknown_token_fails_witness :
    impl_enum_string.visit_str [((0 : Nat), "FOO")] "bar"
      = .error ("invalid value: " ++ "bar") :=
  C3_unknown_token_fails [((0 : Nat), "FOO")] "bar" (by decide)

/-- C7: the schema is closed — an unrecognized field name at the top level,
or nested inside an entity (shown for the skin and asset entities, the ones
whose definitions belong to the verified fragment), is a decode failure;
fields inside an `extensions` slot are an open namespace and decode
successfully. -/
theorem C7_closed_schema :
    (∀ fields : List (String × Json), hasUnknownKey rootKeys fields = true →
      decodeRoot (.obj fields) = .error "unknown field") ∧
    (∀ fields : List (String × Json), hasUnknownKey skinKeys fields = true →
      decodeSkin (.obj fields) = .error "unknown field") ∧
    (∀ fields : List (String × Json), hasUnknownKey assetKeys fields = true →
      decodeAsset (.obj fields) = .error "unknown field") ∧
    (∀ skinFields : List (String × Json),
      hasUnknownKey skinKeys skinFields = true →
      decodeRoot (.obj [("asset", .obj [("version", .str "2.0")]),
                        ("skins", .arr [.obj skinFields])])
        = .error "unknown field") ∧
    (∀ ext : List (String × Json),
      decodeAsset (.obj [("extensions", .obj ext)])
        = .ok ⟨none, some ext, none, none, "2.0"⟩) := by
  have hskin : ∀ fields : List (String × Json),
      hasUnknownKey skinKeys fields = true →
      decodeSkin (.obj fields) = .error "unknown field" := by
    intro fields h
    simp only [decodeSkin]
    rw [if_pos h]
  refine ⟨?_, hskin, ?_, ?_, ?_⟩
  · intro fields h
    simp only [decodeRoot]
    rw [if_pos h]
  · intro fields h
    simp only [decodeAsset]
    rw [if_pos h]
  · intro skinFields h
    have hs := hskin skinFields h
    simp [decodeRoot, decodeRootFields, hasUnknownKey, nodupKeys, defField,
          reqField, optField, decodeArr, decodeList, decodeAsset, decodeString,
          hs, List.lookup, rootKeys, assetKeys]
    rfl
  · intro ext
    rfl

/-- C7 witness: a document with the unrecognized top-level key `bogus` fails
to decode; a document whose skin carries the unrecognized key `bogus` fails
to decode; an asset whose `extensions` object carries an arbitrary vendor
field decodes successfully. -/
theorem C7_closed_schema_witness :
    decodeRoot (.obj [("bogus", .num 1)]) = .error "unknown field" ∧
    decodeRoot (.obj [("asset", .obj [("version", .str "2.0")]),
                      ("skins", .arr [.obj [("joints", .arr []),
                                            ("bogus", .num 1)]])])
      = .error "unknown field" ∧
    decodeAsset (.obj [("extensions", .obj [("KHR_example", .num 1)])])
      = .ok ⟨none, some [("KHR_example", .num 1)], none, none, "2.0"⟩ := by
  refine ⟨C7_closed_schema.1 _ (by decide), ?_, C7_closed_schema.2.2.2.2 _⟩
  exact C7_closed_schema.2.2.2.1 [("joints", .arr []), ("bogus", .num 1)]
    (by decide)
